import Mathlib

/-!
Shallow embedding of `ThreadPool/src/threadpool.h` (class `ThreadPool::ThreadPool`).

Modelling choices:
* `size_t` values are natural numbers; every arithmetic operation the C++
  performs on a `size_t` is taken modulo `WORD = 2 ^ 64` exactly where the
  C++ wraps (the unsigned subtraction in `getTasksRunningCount`, the
  increment in `addTask`, the decrement in `worker`).
* The task bodies are opaque: a task is identified by a `Nat`.  Running a
  task has no effect on the pool state (task bodies in the source are
  arbitrary `std::function<void()>`; reentrant calls into the pool are not
  modelled).
* The member fields of the class keep their source names (`m_tasks`,
  `m_threads`, `m_threadsCount`, `m_tasksTotalCount`, `m_running`,
  `m_paused`).  `m_tasks` (a `std::queue`) is a list with the queue front at
  the head; `m_threads` (a `std::vector<std::thread>`) is a list of
  joinable-flags, `true` meaning the slot holds a running (joinable) thread.
* Three ghost fields instrument the concurrency that the C++ exhibits at
  the granularity of its atomics and its queue lock: `pendingPush` holds
  tasks whose `++m_tasksTotalCount` in `addTask` has happened but whose
  locked `m_tasks.push` has not yet; `inflight` holds tasks a worker has
  popped (`popTask` returned `true`) whose body is still executing, the
  `--m_tasksTotalCount` not yet performed; `executed` is the log of task
  bodies that ran to completion.
* Vector indexing `m_threads[i] = ...` and the indexing in `joinThreads`
  are modelled by an `Option`-valued bounds-checked write: an out-of-bounds
  access (undefined behaviour in C++) yields `none`.
* The busy-polling loops (`waitForTasks`, and the scheduling progress other
  worker threads make during each `std::this_thread::yield()`) are modelled
  with explicit fuel and a deterministic environment step `envStep`: one
  yield quantum lets one concurrent worker finish its in-flight task, or,
  when the pool is running and not paused and no task is in flight, dequeue
  the next task.  The guard `m_running && !m_paused` on dequeuing is taken
  directly from the short-circuit condition `!m_paused && popTask(task)` of
  `ThreadPool::worker`.
-/

namespace ThreadPoolModel

/-- Width of `size_t`, modelled as 64 bits. -/
def WORD : Nat := 2 ^ 64

/-- Wrapping unsigned subtraction on `size_t` values: for `a b < WORD` this
is exactly the C++ expression `a - b` on `size_t`. -/
def usub (a b : Nat) : Nat := (a + (WORD - b % WORD)) % WORD

/-- The state of a `ThreadPool::ThreadPool` object, member fields named as in
the source, plus the three ghost instrumentation fields described in the
file header. -/
structure Pool where
  m_tasks : List Nat
  m_threads : List Bool
  m_threadsCount : Nat
  m_tasksTotalCount : Nat
  m_running : Bool
  m_paused : Bool
  pendingPush : List Nat
  inflight : List Nat
  executed : List Nat
  deriving DecidableEq, Repr

/-- Bounds-checked write `v[i] = a`; `none` models the undefined behaviour of
an out-of-bounds `std::vector` index. -/
def setNth {α : Type} : List α → Nat → α → Option (List α)
  | [], _, _ => none
  | _ :: xs, 0, a => some (a :: xs)
  | x :: xs, n + 1, a => (setNth xs n a).map (x :: ·)

/-- Write the value `b` into the `k` slots `i, i+1, ..., i+k-1` of `v`, the
loop shape shared by `createThreads` and `joinThreads` (there the loop
counter starts at `0` and runs `m_threadsCount` iterations). -/
def fillLoop (b : Bool) : Nat → Nat → List Bool → Option (List Bool)
  | _, 0, v => some v
  | i, k + 1, v => (setNth v i b).bind (fillLoop b (i + 1) k)

/-- `ThreadPool::createThreads`: `for (i = 0; i < m_threadsCount; i++)
m_threads[i] = std::thread(&ThreadPool::worker, this);`. -/
def createThreads (p : Pool) : Option Pool :=
  (fillLoop true 0 p.m_threadsCount p.m_threads).map
    (fun v => { p with m_threads := v })

/-- `ThreadPool::joinThreads`: `for (i = 0; i < m_threadsCount; i++) if
(m_threads[i].joinable()) m_threads[i].join();` — after the loop body a slot
is non-joinable whether or not the branch was taken. -/
def joinThreads (p : Pool) : Option Pool :=
  (fillLoop false 0 p.m_threadsCount p.m_threads).map
    (fun v => { p with m_threads := v })

/-- The constructor `ThreadPool(size_t threadsCount =
std::thread::hardware_concurrency())`: both `m_threadsCount` and the size of
`m_threads` use `threadsCount ? threadsCount : hardware_concurrency()`; then
`createThreads()`.  `hw` is the platform's `hardware_concurrency()`. -/
def mkThreadPool (hw threadsCount : Nat) : Option Pool :=
  let tc := if threadsCount ≠ 0 then threadsCount else hw
  createThreads
    { m_tasks := [], m_threads := List.replicate tc false, m_threadsCount := tc,
      m_tasksTotalCount := 0, m_running := true, m_paused := false,
      pendingPush := [], inflight := [], executed := [] }

/-- `ThreadPool::setPaused(bool paused)`: `m_paused = paused;`. -/
def setPaused (paused : Bool) (p : Pool) : Pool :=
  { p with m_paused := paused }

/-- `ThreadPool::getTasksQueuedCount`: `return m_tasks.size();`. -/
def getTasksQueuedCount (p : Pool) : Nat := p.m_tasks.length

/-- The expression `m_tasksTotalCount - getTasksQueuedCount()` of
`getTasksRunningCount`, as a function of the two separately sampled
`size_t` values (the atomic counter and the locked queue size are read at
two distinct moments). -/
def runningCountOf (total queued : Nat) : Nat := usub total queued

/-- `ThreadPool::getTasksRunningCount`: `return m_tasksTotalCount -
getTasksQueuedCount();`. -/
def getTasksRunningCount (p : Pool) : Nat :=
  runningCountOf p.m_tasksTotalCount (getTasksQueuedCount p)

/-- `ThreadPool::getTasksTotalCount`: `return m_tasksTotalCount;`. -/
def getTasksTotalCount (p : Pool) : Nat := p.m_tasksTotalCount

/-- `ThreadPool::getThreadsCount`: `return m_threadsCount;`. -/
def getThreadsCount (p : Pool) : Nat := p.m_threadsCount

/-- `ThreadPool::addTask(const F&)` run to completion:
`++m_tasksTotalCount;` then, under the lock, `m_tasks.push(...)`.  The
variadic overload only wraps the callable and its bound arguments into a
single task and calls this one, so task identity `t` stands for the wrapped
closure.  A total function: the source has no failure path and no capacity
check. -/
def addTask (t : Nat) (p : Pool) : Pool :=
  { p with m_tasksTotalCount := (p.m_tasksTotalCount + 1) % WORD,
           m_tasks := p.m_tasks ++ [t] }

/-- `ThreadPool::popTask(std::function<void()>&)`: under the lock, if the
queue is non-empty move out the front, pop it and return `true`, else
return `false`. -/
def popTask (p : Pool) : Option Nat × Pool :=
  match p.m_tasks with
  | t :: ts => (some t, { p with m_tasks := ts })
  | [] => (none, p)

/-- One iteration of the loop body of `ThreadPool::worker`, run atomically:
check `m_running`; if `!m_paused && popTask(task)` then `task();
--m_tasksTotalCount;` else yield.  Returns the new state, the task that was
executed (if any), and whether the loop continues (`m_running` was true). -/
def workerIter (p : Pool) : Pool × Option Nat × Bool :=
  if p.m_running then
    if !p.m_paused then
      match popTask p with
      | (some t, q) =>
        ({ q with executed := q.executed ++ [t],
                  m_tasksTotalCount := usub q.m_tasksTotalCount 1 }, some t, true)
      | (none, q) => (q, none, true)
    else (p, none, true)
  else (p, none, false)

/-- The exit test of the polling loop in `ThreadPool::waitForTasks`: break
when `!m_paused` and `m_tasksTotalCount == 0`, or when `m_paused` and
`getTasksRunningCount() == 0`. -/
def waitDone (p : Pool) : Bool :=
  if !p.m_paused then p.m_tasksTotalCount == 0
  else getTasksRunningCount p == 0

/-- Progress the concurrent worker threads make during one
`std::this_thread::yield()` quantum: one worker finishes its in-flight task
(`task()` returns; `--m_tasksTotalCount`), or, when nothing is in flight and
`m_running && !m_paused` (the short-circuit guard of `worker`), one worker
dequeues the queue front.  While `m_paused` holds, no dequeue can occur. -/
def envStep (p : Pool) : Pool :=
  match p.inflight with
  | t :: ts =>
    { p with inflight := ts, executed := p.executed ++ [t],
             m_tasksTotalCount := usub p.m_tasksTotalCount 1 }
  | [] =>
    if p.m_running && !p.m_paused then
      match p.m_tasks with
      | t :: ts => { p with m_tasks := ts, inflight := [t] }
      | [] => p
    else p

/-- `ThreadPool::waitForTasks`: poll `waitDone`, yielding (one `envStep`
quantum) between polls; `fuel` bounds the number of polls, `none` meaning
the loop was still spinning when the fuel ran out. -/
def waitForTasks (fuel : Nat) (p : Pool) : Option Pool :=
  match fuel with
  | 0 => none
  | fuel + 1 => if waitDone p then some p else waitForTasks fuel (envStep p)

/-- `ThreadPool::reset(size_t threadsCount =
std::thread::hardware_concurrency())`: set `m_paused = true`,
`waitForTasks()`, `m_running = false`, `joinThreads()`, then
`m_threadsCount = threadsCount ? threadsCount : hardware_concurrency()` but
`m_threads = std::vector<std::thread>(threadsCount)` with the unadjusted
argument, then `m_paused = false; m_running = true; createThreads();`.
The source also records `const bool wasPaused = m_paused;` on entry but
never reads it again — dead code, so it has no counterpart here. -/
def reset (hw fuel threadsCount : Nat) (p : Pool) : Option Pool :=
  match waitForTasks fuel { p with m_paused := true } with
  | none => none
  | some r =>
    match joinThreads { r with m_running := false } with
    | none => none
    | some s =>
      createThreads { s with
        m_threadsCount := if threadsCount ≠ 0 then threadsCount else hw,
        m_threads := List.replicate threadsCount false,
        m_paused := false, m_running := true }

/-- The destructor `~ThreadPool`: `waitForTasks(); m_running = false;
joinThreads();`. -/
def destruct (fuel : Nat) (p : Pool) : Option Pool :=
  match waitForTasks fuel p with
  | none => none
  | some p => joinThreads { p with m_running := false }

/-- The atomic transitions of the pool at the granularity of the source's
synchronisation: each constructor is one atomic access (an atomic
counter operation, or one critical section of `m_mutex`).
`submitInc` and `submitPush` are the two halves of `addTask`
(`++m_tasksTotalCount`, then the locked `m_tasks.push`); `dequeue` is a
successful `popTask` inside `worker`, guarded by the short-circuit
`m_running` loop condition and `!m_paused`; `finish` is `task()` returning
followed by `--m_tasksTotalCount`; `pause` is `setPaused`; `run` is a write
to `m_running` (constructor, `reset`, destructor). -/
inductive PStep : Pool → Pool → Prop where
  | submitInc (t : Nat) (p : Pool) :
      PStep p { p with m_tasksTotalCount := (p.m_tasksTotalCount + 1) % WORD,
                       pendingPush := p.pendingPush ++ [t] }
  | submitPush (t : Nat) (ts : List Nat) (p : Pool)
      (h : p.pendingPush = t :: ts) :
      PStep p { p with pendingPush := ts, m_tasks := p.m_tasks ++ [t] }
  | dequeue (t : Nat) (ts : List Nat) (p : Pool) (hrun : p.m_running = true)
      (hpaused : p.m_paused = false) (h : p.m_tasks = t :: ts) :
      PStep p { p with m_tasks := ts, inflight := p.inflight ++ [t] }
  | finish (t : Nat) (ts : List Nat) (p : Pool) (h : p.inflight = t :: ts) :
      PStep p { p with inflight := ts, executed := p.executed ++ [t],
                       m_tasksTotalCount := usub p.m_tasksTotalCount 1 }
  | pause (b : Bool) (p : Pool) : PStep p { p with m_paused := b }
  | run (b : Bool) (p : Pool) : PStep p { p with m_running := b }

/-- Number of outstanding tasks actually present in the system: queued,
counted-but-not-yet-pushed, and popped-but-not-yet-finished. -/
def load (p : Pool) : Nat :=
  p.m_tasks.length + p.pendingPush.length + p.inflight.length

/-- The counter invariant: `m_tasksTotalCount` equals the actual load and
has not overflowed its `size_t` range. -/
def CounterInv (p : Pool) : Prop :=
  p.m_tasksTotalCount = load p ∧ load p < WORD

/-- An idle two-thread pool, as produced by `ThreadPool(2)`. -/
def pC1 : Pool :=
  { m_tasks := [], m_threads := [true, true], m_threadsCount := 2,
    m_tasksTotalCount := 0, m_running := true, m_paused := false,
    pendingPush := [], inflight := [], executed := [] }

/-- The pool `reset 8 2 1 pC1` produces: one fresh worker thread. -/
def pC1b : Pool :=
  { m_tasks := [], m_threads := [true], m_threadsCount := 1,
    m_tasksTotalCount := 0, m_running := true, m_paused := false,
    pendingPush := [], inflight := [], executed := [] }

/-- A paused one-thread pool with task `7` queued and task `5` in flight. -/
def pC2in : Pool :=
  { m_tasks := [7], m_threads := [true], m_threadsCount := 1,
    m_tasksTotalCount := 2, m_running := true, m_paused := true,
    pendingPush := [], inflight := [5], executed := [] }

/-- The pool `waitForTasks 3 pC2in` returns: task `5` drained, `7` still
queued. -/
def pC2out : Pool :=
  { m_tasks := [7], m_threads := [true], m_threadsCount := 1,
    m_tasksTotalCount := 1, m_running := true, m_paused := true,
    pendingPush := [], inflight := [], executed := [5] }

/-- A paused one-thread pool with task `7` queued and task `5` in flight,
about to be destroyed. -/
def pC3in : Pool :=
  { m_tasks := [7], m_threads := [true], m_threadsCount := 1,
    m_tasksTotalCount := 2, m_running := true, m_paused := true,
    pendingPush := [], inflight := [5], executed := [] }

/-- The pool state at the end of `destruct 3 pC3in`: only `5` ever ran. -/
def pC3out : Pool :=
  { m_tasks := [7], m_threads := [false], m_threadsCount := 1,
    m_tasksTotalCount := 1, m_running := false, m_paused := true,
    pendingPush := [], inflight := [], executed := [5] }

/-- A running two-thread pool with tasks `3, 4` queued (counter `2`). -/
def pC4in : Pool :=
  { m_tasks := [3, 4], m_threads := [true, true], m_threadsCount := 2,
    m_tasksTotalCount := 2, m_running := true, m_paused := false,
    pendingPush := [], inflight := [], executed := [] }

/-- The pool `reset 8 2 3 pC4in` produces: three fresh threads, queue
intact. -/
def pC4out : Pool :=
  { m_tasks := [3, 4], m_threads := [true, true, true], m_threadsCount := 3,
    m_tasksTotalCount := 2, m_running := true, m_paused := false,
    pendingPush := [], inflight := [], executed := [] }

/-- A paused two-thread pool with tasks `3, 4` queued. -/
def pC5in : Pool :=
  { m_tasks := [3, 4], m_threads := [true, true], m_threadsCount := 2,
    m_tasksTotalCount := 2, m_running := true, m_paused := true,
    pendingPush := [], inflight := [], executed := [] }

/-- The pool `reset 8 2 3 pC5in` produces: unpaused despite the paused
input. -/
def pC5out : Pool :=
  { m_tasks := [3, 4], m_threads := [true, true, true], m_threadsCount := 3,
    m_tasksTotalCount := 2, m_running := true, m_paused := false,
    pendingPush := [], inflight := [], executed := [] }

/-- An unpaused pool otherwise identical to `pC5in`. -/
def pC5in2 : Pool :=
  { m_tasks := [3, 4], m_threads := [true, true], m_threadsCount := 2,
    m_tasksTotalCount := 2, m_running := true, m_paused := false,
    pendingPush := [], inflight := [], executed := [] }

/-- The pool `reset 8 2 3 pC5in2` produces. -/
def pC5out2 : Pool :=
  { m_tasks := [3, 4], m_threads := [true, true, true], m_threadsCount := 3,
    m_tasksTotalCount := 2, m_running := true, m_paused := false,
    pendingPush := [], inflight := [], executed := [] }

/-- A paused running pool with a task queued: a worker iteration from here
must be a pure yield. -/
def pC6in : Pool :=
  { m_tasks := [1], m_threads := [true], m_threadsCount := 1,
    m_tasksTotalCount := 1, m_running := true, m_paused := true,
    pendingPush := [], inflight := [], executed := [] }

/-- A pool whose queue holds `1, 2`. -/
def pC7in : Pool :=
  { m_tasks := [1, 2], m_threads := [true], m_threadsCount := 1,
    m_tasksTotalCount := 2, m_running := true, m_paused := false,
    pendingPush := [], inflight := [], executed := [] }

/-- A pool with an empty queue. -/
def pC7empty : Pool :=
  { m_tasks := [], m_threads := [true], m_threadsCount := 1,
    m_tasksTotalCount := 0, m_running := true, m_paused := false,
    pendingPush := [], inflight := [], executed := [] }

/-- An idle pool to submit to. -/
def pC8in : Pool :=
  { m_tasks := [], m_threads := [true], m_threadsCount := 1,
    m_tasksTotalCount := 0, m_running := true, m_paused := false,
    pendingPush := [], inflight := [], executed := [] }

/-- An empty idle pool satisfying the counter invariant. -/
def pC9a : Pool :=
  { m_tasks := [], m_threads := [true], m_threadsCount := 1,
    m_tasksTotalCount := 0, m_running := true, m_paused := false,
    pendingPush := [], inflight := [], executed := [] }

/-- The pool after the `submitInc 5` step from `pC9a`. -/
def pC9b : Pool :=
  { pC9a with m_tasksTotalCount := (pC9a.m_tasksTotalCount + 1) % WORD,
              pendingPush := pC9a.pendingPush ++ [5] }

/-- Unsigned subtraction agrees with truncated subtraction when it does not
wrap. -/
theorem usub_of_le (a b : Nat) (hba : b ≤ a) (ha : a < WORD) :
    usub a b = a - b := by
  unfold usub
  rw [Nat.mod_eq_of_lt (lt_of_le_of_lt hba ha)]
  have h1 : a + (WORD - b) = (a - b) + WORD := by
    have hb : b < WORD := lt_of_le_of_lt hba ha
    omega
  rw [h1, Nat.add_mod_right]
  exact Nat.mod_eq_of_lt (lt_of_le_of_lt (Nat.sub_le a b) ha)

/-- The environment step never touches `m_paused`. -/
theorem envStep_m_paused (p : Pool) : (envStep p).m_paused = p.m_paused := by
  unfold envStep
  split
  · rfl
  · split
    · split <;> rfl
    · rfl

/-- While paused, the environment step cannot dequeue: the queue is
untouched (this is the short-circuit of `!m_paused && popTask(task)`). -/
theorem envStep_m_tasks_of_paused (p : Pool) (h : p.m_paused = true) :
    (envStep p).m_tasks = p.m_tasks := by
  unfold envStep
  split
  · rfl
  · simp [h]

/-- Any task the environment step logs as executed was already logged or
was in flight. -/
theorem envStep_executed (p : Pool) (t : Nat) (h : t ∈ (envStep p).executed) :
    t ∈ p.executed ∨ t ∈ p.inflight := by
  unfold envStep at h
  split at h
  case _ a ts heq =>
    simp only [List.mem_append, List.mem_singleton] at h
    rcases h with h | h
    · exact Or.inl h
    · right; rw [heq, h]; exact List.mem_cons_self a ts
  case _ heq =>
    split at h
    · split at h
      · exact Or.inl h
      · exact Or.inl h
    · exact Or.inl h

/-- While paused, the environment step cannot put new tasks in flight. -/
theorem envStep_inflight_of_paused (p : Pool) (hp : p.m_paused = true)
    (t : Nat) (h : t ∈ (envStep p).inflight) : t ∈ p.inflight := by
  unfold envStep at h
  split at h
  case _ a ts heq => rw [heq]; exact List.mem_cons_of_mem a h
  case _ heq => simp [hp, heq] at h

/-- When the polling loop of `waitForTasks` returns, its exit test holds on
the returned state. -/
theorem waitForTasks_done (fuel : Nat) (p q : Pool)
    (h : waitForTasks fuel p = some q) : waitDone q = true := by
  induction fuel generalizing p with
  | zero => cases h
  | succ n ih =>
    rw [waitForTasks] at h
    by_cases hd : waitDone p = true
    · rw [if_pos hd] at h
      cases h
      exact hd
    · rw [if_neg hd] at h
      exact ih (envStep p) h

/-- `waitForTasks` never changes the paused flag. -/
theorem waitForTasks_m_paused (fuel : Nat) (p q : Pool)
    (h : waitForTasks fuel p = some q) : q.m_paused = p.m_paused := by
  induction fuel generalizing p with
  | zero => cases h
  | succ n ih =>
    rw [waitForTasks] at h
    by_cases hd : waitDone p = true
    · rw [if_pos hd] at h
      cases h
      rfl
    · rw [if_neg hd] at h
      rw [ih (envStep p) h]
      exact envStep_m_paused p

/-- A paused `waitForTasks` drains only in-flight work: the queue is
preserved verbatim, everything newly executed was in flight, and the
in-flight set only shrinks. -/
theorem waitForTasks_paused_frame (fuel : Nat) (p q : Pool)
    (hp : p.m_paused = true) (h : waitForTasks fuel p = some q) :
    q.m_tasks = p.m_tasks ∧
    (∀ t, t ∈ q.executed → t ∈ p.executed ∨ t ∈ p.inflight) ∧
    (∀ t, t ∈ q.inflight → t ∈ p.inflight) := by
  induction fuel generalizing p with
  | zero => cases h
  | succ n ih =>
    rw [waitForTasks] at h
    by_cases hd : waitDone p = true
    · rw [if_pos hd] at h
      cases h
      exact ⟨rfl, fun t ht => Or.inl ht, fun t ht => ht⟩
    · rw [if_neg hd] at h
      have hp2 : (envStep p).m_paused = true := by
        rw [envStep_m_paused]; exact hp
      obtain ⟨h1, h2, h3⟩ := ih (envStep p) hp2 h
      refine ⟨h1.trans (envStep_m_tasks_of_paused p hp), ?_, ?_⟩
      · intro t ht
        rcases h2 t ht with h4 | h4
        · exact envStep_executed p t h4
        · exact Or.inr (envStep_inflight_of_paused p hp t h4)
      · intro t ht
        exact envStep_inflight_of_paused p hp t (h3 t ht)

/-- `createThreads` only rewrites the `m_threads` vector. -/
theorem createThreads_fields (p q : Pool) (h : createThreads p = some q) :
    q = { p with m_threads := q.m_threads } := by
  unfold createThreads at h
  cases hf : fillLoop true 0 p.m_threadsCount p.m_threads with
  | none => rw [hf] at h; cases h
  | some v =>
    rw [hf] at h
    cases h
    rfl

/-- `joinThreads` only rewrites the `m_threads` vector. -/
theorem joinThreads_fields (p q : Pool) (h : joinThreads p = some q) :
    q = { p with m_threads := q.m_threads } := by
  unfold joinThreads at h
  cases hf : fillLoop false 0 p.m_threadsCount p.m_threads with
  | none => rw [hf] at h; cases h
  | some v =>
    rw [hf] at h
    cases h
    rfl

/-- C1: the claim says `reset(k)` leaves the worker container holding the
fallback-adjusted thread count and that `createThreads` indexes within its
bounds, in particular for `k = 0` on a platform whose hint is non-zero.
The code sizes the new `m_threads` vector with the raw argument but sets
`m_threadsCount` to the adjusted value, so `reset(0)` under hint `8` makes
`createThreads` write `m_threads[0] .. m_threads[7]` into an empty vector:
the modelled run aborts at the out-of-bounds write (`none`), while the same
call with `k = 1` (same fuel, same pool) succeeds — the failure is the
indexing, not the drain. -/
theorem reset_zero_threads_oob :
    reset 8 2 0 pC1 = none ∧ reset 8 2 1 pC1 = some pC1b :=
  ⟨rfl, rfl⟩

/-- C2: when `waitForTasks` returns, the pool is quiescent in the dual
sense: not paused implies the outstanding counter is zero; paused implies
the derived running count is zero while the queue is exactly what it was at
the call. -/
theorem waitForTasks_quiescent (fuel : Nat) (p q : Pool)
    (h : waitForTasks fuel p = some q) :
    (q.m_paused = false → getTasksTotalCount q = 0) ∧
    (q.m_paused = true → getTasksRunningCount q = 0 ∧ q.m_tasks = p.m_tasks) := by
  have hd := waitForTasks_done fuel p q h
  constructor
  · intro hp
    unfold waitDone at hd
    rw [hp] at hd
    simpa [getTasksTotalCount] using hd
  · intro hp
    unfold waitDone at hd
    rw [hp] at hd
    refine ⟨by simpa using hd, ?_⟩
    have hpp : p.m_paused = true := by
      rw [← waitForTasks_m_paused fuel p q h]; exact hp
    exact (waitForTasks_paused_frame fuel p q hpp h).1

/-- C2 witness: draining the paused pool `pC2in` finishes in-flight task
`5`, reaches running count zero and leaves task `7` queued. -/
theorem waitForTasks_quiescent_witness :
    getTasksRunningCount pC2out = 0 ∧ pC2out.m_tasks = pC2in.m_tasks :=
  (waitForTasks_quiescent 3 pC2in pC2out rfl).2 rfl

/-- C3: destroying a paused pool preserves the queue verbatim until the
object dies and never executes a queued task that was not already running:
every task in the final executed log was already executed or in flight when
destruction began. -/
theorem destruct_paused_abandons_queue (fuel : Nat) (p q : Pool)
    (hp : p.m_paused = true) (h : destruct fuel p = some q) :
    q.m_tasks = p.m_tasks ∧
    ∀ t, t ∈ p.m_tasks → t ∉ p.executed → t ∉ p.inflight → t ∉ q.executed := by
  unfold destruct at h
  cases hw : waitForTasks fuel p with
  | none => rw [hw] at h; cases h
  | some r =>
    rw [hw] at h
    have hjs := joinThreads_fields _ _ h
    obtain ⟨h1, h2, h3⟩ := waitForTasks_paused_frame fuel p r hp hw
    constructor
    · rw [hjs]; exact h1
    · intro t _ hne hni hq
      rw [hjs] at hq
      rcases h2 t hq with h4 | h4
      · exact hne h4
      · exact hni h4

/-- C3 witness: destroying the paused pool `pC3in` leaves queued task `7`
unexecuted while the in-flight task `5` finished. -/
theorem destruct_paused_abandons_queue_witness :
    pC3out.m_tasks = pC3in.m_tasks ∧ 7 ∉ pC3out.executed := by
  have h := destruct_paused_abandons_queue 3 pC3in pC3out rfl rfl
  exact ⟨h.1, h.2 7 (by decide) (by decide) (by decide)⟩

/-- C4: whatever is queued when `reset` is called is still queued, in the
same order, when `reset` returns: the paused drain inside `reset` finishes
only in-flight work and the rebuild steps never touch `m_tasks`. -/
theorem reset_preserves_queued (hw fuel tc : Nat) (p q : Pool)
    (h : reset hw fuel tc p = some q) : q.m_tasks = p.m_tasks := by
  unfold reset at h
  cases hw1 : waitForTasks fuel { p with m_paused := true } with
  | none => rw [hw1] at h; cases h
  | some r =>
    rw [hw1] at h
    dsimp only at h
    cases hj : joinThreads { r with m_running := false } with
    | none => rw [hj] at h; cases h
    | some s =>
      rw [hj] at h
      dsimp only at h
      have hc := createThreads_fields _ _ h
      have hfr := (waitForTasks_paused_frame fuel _ r rfl hw1).1
      have hjs := joinThreads_fields _ _ hj
      have hqs : q.m_tasks = s.m_tasks := by rw [hc]
      have hsr : s.m_tasks = r.m_tasks := by rw [hjs]
      rw [hqs, hsr, hfr]

/-- C4 witness: `reset 8 2 3 pC4in` returns with the queue `[3, 4]`
untouched. -/
theorem reset_preserves_queued_witness : pC4out.m_tasks = pC4in.m_tasks :=
  reset_preserves_queued 8 2 3 pC4in pC4out rfl

/-- C5: for either prior value of `m_paused`, `reset` returns with
`m_paused = false`: the recorded `wasPaused` is never restored. -/
theorem reset_clears_paused (hw fuel tc : Nat) (p q : Pool)
    (h : reset hw fuel tc p = some q) : q.m_paused = false := by
  unfold reset at h
  cases hw1 : waitForTasks fuel { p with m_paused := true } with
  | none => rw [hw1] at h; cases h
  | some r =>
    rw [hw1] at h
    dsimp only at h
    cases hj : joinThreads { r with m_running := false } with
    | none => rw [hj] at h; cases h
    | some s =>
      rw [hj] at h
      dsimp only at h
      have hc := createThreads_fields _ _ h
      rw [hc]

/-- C5 witness: `reset 8 2 3` unpauses both the paused pool `pC5in` and the
unpaused pool `pC5in2`. -/
theorem reset_clears_paused_witness :
    pC5out.m_paused = false ∧ pC5out2.m_paused = false :=
  ⟨reset_clears_paused 8 2 3 pC5in pC5out rfl,
   reset_clears_paused 8 2 3 pC5in2 pC5out2 rfl⟩

/-- C6: a worker iteration that observes `m_paused = true` neither dequeues
nor executes anything: the state is returned unchanged (queue and counters
included) and no task ran — the short-circuit in
`!m_paused && popTask(task)` skips `popTask` entirely. -/
theorem workerIter_paused_yields (p : Pool) (h : p.m_paused = true) :
    workerIter p = (p, none, p.m_running) := by
  cases hr : p.m_running <;> simp [workerIter, hr, h]

/-- C6 witness: the paused pool `pC6in` with a queued task is returned
unchanged by a worker iteration. -/
theorem workerIter_paused_yields_witness :
    workerIter pC6in = (pC6in, none, pC6in.m_running) :=
  workerIter_paused_yields pC6in rfl

/-- C7: `popTask` on a non-empty queue removes exactly the head, returns
it, and shortens the queue by one; on an empty queue it signals `false`
(here `none`) and leaves the state untouched.  Both branches are straight-
line code under the lock: the function is total, so neither blocks. -/
theorem popTask_head_or_empty (p : Pool) :
    (∀ t ts, p.m_tasks = t :: ts →
      popTask p = (some t, { p with m_tasks := ts }) ∧
      getTasksQueuedCount (popTask p).2 + 1 = getTasksQueuedCount p) ∧
    (p.m_tasks = [] → popTask p = (none, p)) := by
  constructor
  · intro t ts h
    constructor
    · simp [popTask, h]
    · simp [popTask, h, getTasksQueuedCount]
  · intro h
    simp [popTask, h]

/-- C7 witness: popping `pC7in` removes head `1` leaving `[2]`; popping the
empty `pC7empty` changes nothing. -/
theorem popTask_head_or_empty_witness :
    popTask pC7in = (some 1, { pC7in with m_tasks := [2] }) ∧
    popTask pC7empty = (none, pC7empty) :=
  ⟨((popTask_head_or_empty pC7in).1 1 [2] rfl).1,
   (popTask_head_or_empty pC7empty).2 rfl⟩

/-- C8: `addTask` is total (no failure path, no capacity check) and its
whole effect is to append the task at the queue tail and increment the
outstanding counter by one; threads, thread count and both flags are
untouched.  The hypothesis rules out wrapping of the 64-bit counter. -/
theorem addTask_appends_one (p : Pool) (t : Nat)
    (h : p.m_tasksTotalCount + 1 < WORD) :
    (addTask t p).m_tasks = p.m_tasks ++ [t] ∧
    getTasksTotalCount (addTask t p) = getTasksTotalCount p + 1 ∧
    (addTask t p).m_threads = p.m_threads ∧
    (addTask t p).m_threadsCount = p.m_threadsCount ∧
    (addTask t p).m_running = p.m_running ∧
    (addTask t p).m_paused = p.m_paused := by
  refine ⟨rfl, ?_, rfl, rfl, rfl, rfl⟩
  simp [addTask, getTasksTotalCount, Nat.mod_eq_of_lt h]

/-- C8 witness: submitting task `9` to the idle pool `pC8in` appends it and
raises the counter to one. -/
theorem addTask_appends_one_witness :
    (addTask 9 pC8in).m_tasks = pC8in.m_tasks ++ [9] ∧
    getTasksTotalCount (addTask 9 pC8in) = getTasksTotalCount pC8in + 1 ∧
    (addTask 9 pC8in).m_threads = pC8in.m_threads ∧
    (addTask 9 pC8in).m_threadsCount = pC8in.m_threadsCount ∧
    (addTask 9 pC8in).m_running = pC8in.m_running ∧
    (addTask 9 pC8in).m_paused = pC8in.m_paused :=
  addTask_appends_one pC8in 9 (by decide)

/-- C9: every atomic transition preserves the counter invariant (the
counter equals queued + pending + in-flight), hence at every state reached
this way the queued count never exceeds the total count and the derived
running count is the exact, non-wrapped difference.  The `load q < WORD`
hypothesis rules out overflowing the 64-bit counter on a submission. -/
theorem pstep_preserves_counter_inv (p q : Pool) (hInv : CounterInv p)
    (hs : PStep p q) (hcap : load q < WORD) :
    CounterInv q ∧ getTasksQueuedCount q ≤ getTasksTotalCount q ∧
    getTasksRunningCount q = getTasksTotalCount q - getTasksQueuedCount q := by
  obtain ⟨htot, hlt⟩ := hInv
  simp only [load] at htot hlt
  have hq : CounterInv q := by
    cases hs with
    | submitInc t p =>
      refine ⟨?_, hcap⟩
      simp only [load, List.length_append, List.length_cons,
        List.length_nil] at hcap ⊢
      rw [Nat.mod_eq_of_lt (by omega)]
      omega
    | submitPush t ts p h =>
      refine ⟨?_, hcap⟩
      have _h1 : p.pendingPush.length = ts.length + 1 := by rw [h]; rfl
      simp only [load, List.length_append, List.length_cons,
        List.length_nil] at hcap ⊢
      omega
    | dequeue t ts p hrun hpaused h =>
      refine ⟨?_, hcap⟩
      have h1 : p.m_tasks.length = ts.length + 1 := by rw [h]; rfl
      simp only [load, List.length_append, List.length_cons,
        List.length_nil] at hcap ⊢
      omega
    | finish t ts p h =>
      refine ⟨?_, hcap⟩
      have h1 : p.inflight.length = ts.length + 1 := by rw [h]; rfl
      simp only [load] at hcap ⊢
      rw [usub_of_le _ 1 (by omega) (by omega)]
      omega
    | pause b p => exact ⟨htot, hlt⟩
    | run b p => exact ⟨htot, hlt⟩
  obtain ⟨hqt, hql⟩ := hq
  simp only [load] at hqt hql
  have hle : q.m_tasks.length ≤ q.m_tasksTotalCount := by omega
  refine ⟨⟨hqt, by simpa [load] using hql⟩, hle, ?_⟩
  show usub q.m_tasksTotalCount q.m_tasks.length =
    q.m_tasksTotalCount - q.m_tasks.length
  exact usub_of_le _ _ hle (by omega)

/-- C9 witness: the `submitInc 5` step from the empty pool `pC9a` keeps the
invariant, with queued count at most total count. -/
theorem pstep_preserves_counter_inv_witness :
    CounterInv pC9b ∧ getTasksQueuedCount pC9b ≤ getTasksTotalCount pC9b ∧
    getTasksRunningCount pC9b = getTasksTotalCount pC9b - getTasksQueuedCount pC9b :=
  pstep_preserves_counter_inv pC9a pC9b ⟨by decide, by decide⟩
    (PStep.submitInc 5 pC9a) (by decide)

/-- C10: `getTasksRunningCount` is the unsigned difference of the two
separately sampled `size_t` values; whenever the sampled queued count
exceeds the sampled total, the result wraps modulo `2 ^ 64` to
`total + (2 ^ 64 - queued)` — a value larger than `total` itself and in
particular not clamped to zero. -/
theorem runningCount_wraps (total queued : Nat) (_h1 : total < WORD)
    (h2 : queued < WORD) (h : total < queued) :
    runningCountOf total queued = total + (WORD - queued) ∧
    runningCountOf total queued ≠ 0 ∧
    total < runningCountOf total queued := by
  have hq : queued % WORD = queued := Nat.mod_eq_of_lt h2
  have heq : runningCountOf total queued = total + (WORD - queued) := by
    unfold runningCountOf usub
    rw [hq]
    exact Nat.mod_eq_of_lt (by omega)
  refine ⟨heq, ?_, ?_⟩ <;> rw [heq] <;> omega

/-- C10 witness: sampling total `0` against queued `1` yields
`2 ^ 64 - 1`, not zero. -/
theorem runningCount_wraps_witness :
    runningCountOf 0 1 = 0 + (WORD - 1) ∧ runningCountOf 0 1 ≠ 0 ∧
    0 < runningCountOf 0 1 :=
  runningCount_wraps 0 1 (by decide) (by decide) (by decide)

end ThreadPoolModel
